import Mathlib

/-!
Verification of the field-reconciliation engine of the TIP testing pipeline
(`PredictionComparator` in `pipeline_4.py`, with the `jyotsana_code.py`
variant embedded where a claim targets it).

JSON-compatible values are modelled by the tagged variant `Value`
(null, bool, integer, string, sequence, mapping).  Floating-point JSON
numbers are outside the model; strings are modelled over printable
characters (the escape tables cover the escapes that actually occur in
the data handled by the pipeline).  Python's `str()` / `repr()` rendering,
`json.dumps`, `json.loads`, `str.strip`, `str.lower` and dict semantics
are each embedded as executable Lean functions below, translated from the
behaviour the source relies on.
-/

namespace TIP

/-- JSON-compatible values as decoded by `json.load(s)`: null, booleans,
(integer) numbers, strings, arrays, and objects in insertion order. -/
inductive Value where
  | null : Value
  | bool (b : Bool) : Value
  | num (n : Int) : Value
  | str (s : String) : Value
  | arr (elems : List Value) : Value
  | obj (entries : List (String × Value)) : Value

mutual
/-- Decidable equality on `Value` (hand-rolled: the deriving handler does
not support nested inductives on this toolchain). -/
def decEqV : (a b : Value) → Decidable (a = b)
  | .null, .null => isTrue rfl
  | .bool a, .bool b =>
    if h : a = b then isTrue (by rw [h]) else isFalse (fun hh => h (Value.bool.inj hh))
  | .num a, .num b =>
    if h : a = b then isTrue (by rw [h]) else isFalse (fun hh => h (Value.num.inj hh))
  | .str a, .str b =>
    if h : a = b then isTrue (by rw [h]) else isFalse (fun hh => h (Value.str.inj hh))
  | .arr a, .arr b =>
    match decEqVL a b with
    | isTrue h => isTrue (by rw [h])
    | isFalse h => isFalse (fun hh => h (Value.arr.inj hh))
  | .obj a, .obj b =>
    match decEqVO a b with
    | isTrue h => isTrue (by rw [h])
    | isFalse h => isFalse (fun hh => h (Value.obj.inj hh))
  | .null, .bool _ => isFalse Value.noConfusion
  | .null, .num _ => isFalse Value.noConfusion
  | .null, .str _ => isFalse Value.noConfusion
  | .null, .arr _ => isFalse Value.noConfusion
  | .null, .obj _ => isFalse Value.noConfusion
  | .bool _, .null => isFalse Value.noConfusion
  | .bool _, .num _ => isFalse Value.noConfusion
  | .bool _, .str _ => isFalse Value.noConfusion
  | .bool _, .arr _ => isFalse Value.noConfusion
  | .bool _, .obj _ => isFalse Value.noConfusion
  | .num _, .null => isFalse Value.noConfusion
  | .num _, .bool _ => isFalse Value.noConfusion
  | .num _, .str _ => isFalse Value.noConfusion
  | .num _, .arr _ => isFalse Value.noConfusion
  | .num _, .obj _ => isFalse Value.noConfusion
  | .str _, .null => isFalse Value.noConfusion
  | .str _, .bool _ => isFalse Value.noConfusion
  | .str _, .num _ => isFalse Value.noConfusion
  | .str _, .arr _ => isFalse Value.noConfusion
  | .str _, .obj _ => isFalse Value.noConfusion
  | .arr _, .null => isFalse Value.noConfusion
  | .arr _, .bool _ => isFalse Value.noConfusion
  | .arr _, .num _ => isFalse Value.noConfusion
  | .arr _, .str _ => isFalse Value.noConfusion
  | .arr _, .obj _ => isFalse Value.noConfusion
  | .obj _, .null => isFalse Value.noConfusion
  | .obj _, .bool _ => isFalse Value.noConfusion
  | .obj _, .num _ => isFalse Value.noConfusion
  | .obj _, .str _ => isFalse Value.noConfusion
  | .obj _, .arr _ => isFalse Value.noConfusion

/-- Decidable equality on lists of values. -/
def decEqVL : (a b : List Value) → Decidable (a = b)
  | [], [] => isTrue rfl
  | [], _ :: _ => isFalse List.noConfusion
  | _ :: _, [] => isFalse List.noConfusion
  | x :: xs, y :: ys =>
    match decEqV x y with
    | isFalse h => isFalse (fun hh => h (List.cons.inj hh).1)
    | isTrue h1 =>
      match decEqVL xs ys with
      | isTrue h2 => isTrue (by rw [h1, h2])
      | isFalse h => isFalse (fun hh => h (List.cons.inj hh).2)

/-- Decidable equality on lists of object entries. -/
def decEqVO : (a b : List (String × Value)) → Decidable (a = b)
  | [], [] => isTrue rfl
  | [], _ :: _ => isFalse List.noConfusion
  | _ :: _, [] => isFalse List.noConfusion
  | (k, v) :: xs, (k2, v2) :: ys =>
    if hk : k = k2 then
      match decEqV v v2 with
      | isFalse h => isFalse (fun hh => h (congrArg Prod.snd (List.cons.inj hh).1))
      | isTrue h1 =>
        match decEqVO xs ys with
        | isTrue h2 => isTrue (by rw [hk, h1, h2])
        | isFalse h => isFalse (fun hh => h (List.cons.inj hh).2)
    else isFalse (fun hh => hk (congrArg Prod.fst (List.cons.inj hh).1))
end

instance : DecidableEq Value := decEqV

/-- The double-quote character. -/
def cQuote : Char := Char.ofNat 34

/-- The single-quote character. -/
def cApos : Char := Char.ofNat 39

/-- The backslash character. -/
def cBack : Char := Char.ofNat 92

/-- The opening-brace character. -/
def cLBrace : Char := Char.ofNat 123

/-- The closing-brace character. -/
def cRBrace : Char := Char.ofNat 125

/-- ASCII lower-casing of one character, as Python's `str.lower` acts on
the ASCII range handled by the pipeline. -/
def lowerChar (c : Char) : Char :=
  if 65 ≤ c.toNat ∧ c.toNat ≤ 90 then Char.ofNat (c.toNat + 32) else c

/-- Embedding of Python's `str.lower` (ASCII fragment). -/
def lowerStr (s : String) : String := String.mk (s.data.map lowerChar)

/-- Characters removed by Python's `str.strip()` (ASCII whitespace). -/
def pyIsSpace (c : Char) : Bool :=
  c = ' ' ∨ c = Char.ofNat 9 ∨ c = Char.ofNat 10 ∨ c = Char.ofNat 13 ∨
  c = Char.ofNat 11 ∨ c = Char.ofNat 12

/-- Whitespace accepted between tokens by Python's `json.loads`. -/
def isJsonWS (c : Char) : Bool :=
  c = ' ' ∨ c = Char.ofNat 9 ∨ c = Char.ofNat 10 ∨ c = Char.ofNat 13

/-- `str.strip()` on the underlying character list. -/
def stripChars (l : List Char) : List Char :=
  ((l.reverse.dropWhile pyIsSpace).reverse).dropWhile pyIsSpace

/-- Embedding of Python's `str.strip()`. -/
def strip (s : String) : String := String.mk (stripChars s.data)

/-- Escape table used inside Python `repr` of a string (main cases:
backslash, the active quote character, newline, tab, carriage return). -/
def reprEsc (q : Char) (c : Char) : List Char :=
  if c = cBack then [cBack, cBack]
  else if c = q then [cBack, q]
  else if c = Char.ofNat 10 then [cBack, 'n']
  else if c = Char.ofNat 9 then [cBack, 't']
  else if c = Char.ofNat 13 then [cBack, 'r']
  else [c]

/-- Python `repr` of a string: single quotes unless the string contains a
single quote and no double quote. -/
def pyReprStr (s : String) : String :=
  let q := if s.data.contains cApos ∧ ¬ s.data.contains cQuote then cQuote else cApos
  String.mk (q :: (s.data.map (reprEsc q)).flatten ++ [q])

mutual
/-- Python `repr()` of a JSON-compatible value (used by `str()` inside
containers). -/
def pyRepr : Value → String
  | .null => "None"
  | .bool b => if b then "True" else "False"
  | .num n => toString n
  | .str s => pyReprStr s
  | .arr l => String.mk ('[' :: (pyReprList l).data ++ [']'])
  | .obj m => String.mk (cLBrace :: (pyReprObj m).data ++ [cRBrace])

/-- Comma-separated `repr` of list elements. -/
def pyReprList : List Value → String
  | [] => ""
  | [v] => pyRepr v
  | v :: rest => pyRepr v ++ ", " ++ pyReprList rest

/-- Comma-separated `repr` of dict entries. -/
def pyReprObj : List (String × Value) → String
  | [] => ""
  | [p] => pyReprStr p.1 ++ ": " ++ pyRepr p.2
  | p :: rest => pyReprStr p.1 ++ ": " ++ pyRepr p.2 ++ ", " ++ pyReprObj rest
end

/-- Python `str()` of a JSON-compatible value: identity on strings,
`repr`-style text on containers, `None` / `True` / `False` on the other
scalars. -/
def pyStr : Value → String
  | .str s => s
  | v => pyRepr v

/-- Escape table of `json.dumps` for characters in strings. -/
def dumpEsc (c : Char) : List Char :=
  if c = cBack then [cBack, cBack]
  else if c = cQuote then [cBack, cQuote]
  else if c = Char.ofNat 10 then [cBack, 'n']
  else if c = Char.ofNat 9 then [cBack, 't']
  else if c = Char.ofNat 13 then [cBack, 'r']
  else [c]

/-- `json.dumps` of a string (with surrounding double quotes). -/
def dumpStr (s : String) : String :=
  String.mk (cQuote :: (s.data.map dumpEsc).flatten ++ [cQuote])

mutual
/-- Embedding of Python's `json.dumps` with its default separators. -/
def dumps : Value → String
  | .null => "null"
  | .bool b => if b then "true" else "false"
  | .num n => toString n
  | .str s => dumpStr s
  | .arr l => String.mk ('[' :: (dumpsList l).data ++ [']'])
  | .obj m => String.mk (cLBrace :: (dumpsObj m).data ++ [cRBrace])

/-- Comma-separated `json.dumps` of array elements. -/
def dumpsList : List Value → String
  | [] => ""
  | [v] => dumps v
  | v :: rest => dumps v ++ ", " ++ dumpsList rest

/-- Comma-separated `json.dumps` of object entries. -/
def dumpsObj : List (String × Value) → String
  | [] => ""
  | [p] => dumpStr p.1 ++ ": " ++ dumps p.2
  | p :: rest => dumpStr p.1 ++ ": " ++ dumps p.2 ++ ", " ++ dumpsObj rest
end

/-- `PredictionComparator._format_value`: null renders to the empty string,
dicts and lists to their `json.dumps` text, everything else to `str()`. -/
def format_value : Value → String
  | .null => ""
  | .arr l => dumps (.arr l)
  | .obj m => dumps (.obj m)
  | v => pyStr v

/-- Python dict assignment `d[k] = v` on an insertion-ordered association
list: update in place when the key exists, append otherwise. -/
def dictInsert : List (String × Value) → String → Value → List (String × Value)
  | [], k, v => [(k, v)]
  | p :: rest, k, v => if p.1 = k then (k, v) :: rest else p :: dictInsert rest k v

/-- Python dict lookup `d[k]` / `d.get(k)` on an association list. -/
def lookupV : List (String × Value) → String → Option Value
  | [], _ => none
  | p :: rest, k => if p.1 = k then some p.2 else lookupV rest k

/-- Python truthiness of a JSON-compatible value. -/
def truthy : Value → Bool
  | .null => false
  | .bool b => b
  | .num n => n ≠ 0
  | .str s => s ≠ ""
  | .arr l => l ≠ []
  | .obj m => m ≠ []

/-- Drop JSON inter-token whitespace. -/
def skipWS (l : List Char) : List Char := l.dropWhile isJsonWS

/-- Body of a JSON string literal (after the opening quote): collects
characters until the closing quote, decoding the common escapes.  Raw
control characters and unsupported escapes fail, as in strict
`json.loads`. -/
def parseStrChars : List Char → List Char → Option (String × List Char)
  | _, [] => none
  | acc, c :: rest =>
    if c = cQuote then some (String.mk acc.reverse, rest)
    else if c = cBack then
      match rest with
      | [] => none
      | e :: rest2 =>
        if e = cQuote then parseStrChars (cQuote :: acc) rest2
        else if e = cBack then parseStrChars (cBack :: acc) rest2
        else if e = '/' then parseStrChars ('/' :: acc) rest2
        else if e = 'n' then parseStrChars (Char.ofNat 10 :: acc) rest2
        else if e = 't' then parseStrChars (Char.ofNat 9 :: acc) rest2
        else if e = 'r' then parseStrChars (Char.ofNat 13 :: acc) rest2
        else none
    else if 32 ≤ c.toNat then parseStrChars (c :: acc) rest
    else none

/-- Digit run of a JSON number. -/
def parseDigits (acc : Nat) : List Char → Nat × List Char
  | [] => (acc, [])
  | c :: rest =>
    if c.isDigit then parseDigits (acc * 10 + (c.toNat - 48)) rest
    else (acc, c :: rest)

/-- Natural-number part of a JSON number (`0`, or a nonzero digit followed
by digits — JSON forbids leading zeros). -/
def parseNatJson : List Char → Option (Nat × List Char)
  | [] => none
  | c :: rest =>
    if c = '0' then some (0, rest)
    else if c.isDigit then some (parseDigits (c.toNat - 48) rest)
    else none

/-- Integer JSON numbers (the model excludes floats). -/
def parseNum (cs : List Char) : Option (Value × List Char) :=
  match cs with
  | '-' :: rest => (parseNatJson rest).map (fun p => (Value.num (-(p.1 : Int)), p.2))
  | _ => (parseNatJson cs).map (fun p => (Value.num (p.1 : Int), p.2))

mutual
/-- One JSON value, fuelled recursive-descent as `json.loads` decodes it.
The head character determines the constructor of the result. -/
def parseVal : Nat → List Char → Option (Value × List Char)
  | 0, _ => none
  | fuel + 1, cs =>
    match cs with
    | [] => none
    | c :: rest =>
      if c = cLBrace then
        match skipWS rest with
        | d :: r2 =>
          if d = cRBrace then some (Value.obj [], r2)
          else (parseObjBody fuel [] (d :: r2)).map (fun p => (Value.obj p.1, p.2))
        | [] => none
      else if c = '[' then
        match skipWS rest with
        | d :: r2 =>
          if d = ']' then some (Value.arr [], r2)
          else (parseArrBody fuel [] (d :: r2)).map (fun p => (Value.arr p.1, p.2))
        | [] => none
      else if c = cQuote then
        (parseStrChars [] rest).map (fun p => (Value.str p.1, p.2))
      else if c = 't' then
        match rest with
        | 'r' :: 'u' :: 'e' :: r2 => some (Value.bool true, r2)
        | _ => none
      else if c = 'f' then
        match rest with
        | 'a' :: 'l' :: 's' :: 'e' :: r2 => some (Value.bool false, r2)
        | _ => none
      else if c = 'n' then
        match rest with
        | 'u' :: 'l' :: 'l' :: r2 => some (Value.null, r2)
        | _ => none
      else parseNum cs

/-- Elements of a JSON array (positioned at an element start). -/
def parseArrBody : Nat → List Value → List Char → Option (List Value × List Char)
  | 0, _, _ => none
  | fuel + 1, acc, cs =>
    match parseVal fuel cs with
    | none => none
    | some (v, rest) =>
      match skipWS rest with
      | d :: r2 =>
        if d = ',' then parseArrBody fuel (v :: acc) (skipWS r2)
        else if d = ']' then some ((v :: acc).reverse, r2)
        else none
      | [] => none

/-- Entries of a JSON object (positioned at a key start).  Duplicate keys
follow Python dict assignment: first position, last value. -/
def parseObjBody : Nat → List (String × Value) → List Char →
    Option (List (String × Value) × List Char)
  | 0, _, _ => none
  | fuel + 1, acc, cs =>
    match cs with
    | c :: rest =>
      if c = cQuote then
        match parseStrChars [] rest with
        | none => none
        | some (k, r1) =>
          match skipWS r1 with
          | d :: r2 =>
            if d = ':' then
              match parseVal fuel (skipWS r2) with
              | none => none
              | some (v, r3) =>
                let acc2 := dictInsert acc k v
                match skipWS r3 with
                | e :: r4 =>
                  if e = ',' then parseObjBody fuel acc2 (skipWS r4)
                  else if e = cRBrace then some (acc2, r4)
                  else none
                | [] => none
            else none
          | [] => none
      else none
    | [] => none
end

/-- Fuel that strictly dominates the recursion depth of the parser on an
input of the given length. -/
def jsonFuel (s : String) : Nat := 3 * s.length + 16

/-- Embedding of Python's `json.loads` on the modelled fragment: parse one
value surrounded by optional whitespace, reject trailing input. -/
def json_loads (s : String) : Option Value :=
  match parseVal (jsonFuel s) (skipWS s.data) with
  | some (v, rest) => if skipWS rest = [] then some v else none
  | none => none

/-- `PredictionComparator._is_json_string`: the text starts with `[` or `{`
and `json.loads` accepts it. -/
def is_json_string (s : String) : Bool :=
  match s.data with
  | c :: _ => (c = '[' ∨ c = cLBrace) && (json_loads s).isSome
  | [] => false

/-- Lexicographic (code-point) comparison on character lists: the order
Python uses to compare and sort strings. -/
def leChars : List Char → List Char → Bool
  | [], _ => true
  | _ :: _, [] => false
  | a :: as2, b :: bs =>
    if a.toNat < b.toNat then true
    else if b.toNat < a.toNat then false
    else leChars as2 bs

/-- Python `<=` on strings. -/
def pyStrLe (a b : String) : Bool := leChars a.data b.data

/-- Prefix test on character lists. -/
def startsWithChars : List Char → List Char → Bool
  | [], _ => true
  | _ :: _, [] => false
  | p :: ps, c :: cs => p = c && startsWithChars ps cs

/-- Embedding of Python's `str.startswith`. -/
def pyStartsWith (s pre : String) : Bool := startsWithChars pre.data s.data

/-- Insertion into a key-sorted entry list (device for `canon`). -/
def insertByKey (p : String × Value) : List (String × Value) → List (String × Value)
  | [] => [p]
  | q :: rest => if pyStrLe p.1 q.1 then p :: q :: rest else q :: insertByKey p rest

/-- Key-sort of an entry list (device for `canon`). -/
def sortByKey : List (String × Value) → List (String × Value)
  | [] => []
  | p :: rest => insertByKey p (sortByKey rest)

mutual
/-- Canonical form implementing Python `==` on decoded JSON values.
Python compares dicts as finite maps, so object entries are key-sorted
recursively; Python's numeric tower makes `True == 1` and `False == 0`,
so booleans canonicalize to the numbers 1 and 0.  Two values are
Python-equal iff their canonical forms are structurally equal (on
unique-keyed objects, the only ones `json.loads` produces). -/
def canon : Value → Value
  | .null => .null
  | .bool b => .num (if b then 1 else 0)
  | .num n => .num n
  | .str s => .str s
  | .arr l => .arr (canonList l)
  | .obj m => .obj (sortByKey (canonObj m))

/-- `canon` mapped over array elements. -/
def canonList : List Value → List Value
  | [] => []
  | v :: rest => canon v :: canonList rest

/-- `canon` mapped over object entry values. -/
def canonObj : List (String × Value) → List (String × Value)
  | [] => []
  | p :: rest => (p.1, canon p.2) :: canonObj rest
end

/-- Python `==` on decoded JSON values: order-insensitive on dicts and
identifying `True` with 1 and `False` with 0, via canonical forms. -/
def pyEq (a b : Value) : Bool := canon a = canon b

/-- Scalar (hashable) JSON values: everything except dicts and lists. -/
def isScalar : Value → Bool
  | .arr _ => false
  | .obj _ => false
  | _ => true

/-- Whether converting a sequence element for the set comparison of
`_compare_json_values` yields a hashable object: a dict becomes
`frozenset(d.items())` (hashable iff every value is a scalar), anything
else is put into the set as-is (lists are unhashable). -/
def hashableElem : Value → Bool
  | .obj m => m.all (fun p => isScalar p.2)
  | .arr _ => false
  | _ => true

/-- Equality of two converted sequence elements, as Python's `set` /
`frozenset` machinery applies it: dicts compare as `frozenset` of their
items (tuples compared componentwise with `==`), everything else by
Python `==` — which identifies `True` with 1 and `False` with 0, here
`pyEq`. -/
def elemEq : Value → Value → Bool
  | .obj a, .obj b =>
    a.all (fun p => b.any (fun q => p.1 = q.1 && pyEq p.2 q.2)) &&
    b.all (fun q => a.any (fun p => p.1 = q.1 && pyEq p.2 q.2))
  | .obj _, _ => false
  | _, .obj _ => false
  | a, b => pyEq a b

/-- `PredictionComparator._compare_json_values`: deep equality on two
dicts; set equality of converted elements on two lists (any unhashable
element raises `TypeError`, which the bare `except` turns into `False`);
`False` on mixed shapes or parse failure. -/
def compare_json_values (g p : String) : Bool :=
  match json_loads g, json_loads p with
  | some (.obj a), some (.obj b) => pyEq (.obj a) (.obj b)
  | some (.arr a), some (.arr b) =>
    if a.all hashableElem && b.all hashableElem then
      a.all (fun x => b.any (fun y => elemEq x y)) &&
      b.all (fun y => a.any (fun x => elemEq x y))
    else false
  | some _, some _ => false
  | _, _ => false

/-- Python `'hidden' in j` on a decoded JSON value: key containment for a
dict, element membership for a list. -/
def containsHidden : Value → Bool
  | .obj m => m.any (fun p => p.1 = "hidden")
  | .arr l => l.any (fun v => v = Value.str "hidden")
  | _ => false

/-- Python `j['hidden']` on a decoded JSON value: `some` of the value for
a dict, `none` for the `TypeError` a non-integer subscript raises on a
list (that exception is not caught by the toggle branch). -/
def subscriptHidden : Value → Option Value
  | .obj m => lookupV m "hidden"
  | _ => none

/-- The toggle branch of `_determine_match_status` (lines 368-377 of
`pipeline_4.py`).  `none`: the branch falls through; `some none`: an
uncaught `TypeError` escapes; `some (some r)`: the branch returns `r`. -/
def toggleStep (f g p : String) : Option (Option (String × String)) :=
  if pyStartsWith f ("toggle-") && is_json_string g && is_json_string p then
    match json_loads g, json_loads p with
    | some gv, some pv =>
      if containsHidden gv && containsHidden pv then
        match subscriptHidden gv, subscriptHidden pv with
        | some hg, some hp =>
          some (some
            (if pyEq hg hp then ("GT Present PR Present and match", "toggle_match_hidden_only")
             else ("GT Present PR Present but mismatch", "incorrect_toggle_hidden_mismatch")))
        | _, _ => some none
      else none
    | _, _ => none
  else none

/-- The semantic-judge capability: `(field, gt text, predicted text)` to
either a raw response text or a raised exception. -/
def Judge : Type := String → String → String → Except Unit String

/-- `_call_llm_for_match_analysis` around a configured judge: the response
text stripped and lower-cased; any exception yields `llm_error`. -/
def judgeResult (j : Judge) (f g p : String) : String :=
  match j f g p with
  | .ok s => lowerStr (strip s)
  | .error _ => "llm_error"

/-- `_determine_match_status` after both values were rendered to text:
exact equality, toggle branch, JSON equivalence, then judge fallback (the
`accept` list holds the match-equivalent judge labels of the variant). -/
def matchCascade (accept : List String) (j : Option Judge) (f g p : String) :
    Option (String × String) :=
  if g = p then some ("GT Present PR Present and match", "exact_match")
  else
    match toggleStep f g p with
    | some r => r
    | none =>
      if is_json_string g && is_json_string p && compare_json_values g p then
        some ("GT Present PR Present and match", "json_partial_match")
      else
        match j with
        | none => some ("GT Present PR Present but mismatch", "incorrect")
        | some jf =>
          let res := judgeResult jf f g p
          some (if accept.contains res then ("GT Present PR Present and match", res)
                else ("GT Present PR Present but mismatch", res))

/-- `PredictionComparator._determine_match_status` of `pipeline_4.py`:
renders both values with Python `str()` stripped of surrounding
whitespace, then runs the cascade with match-equivalent judge labels
`default_match` and `json_partial_correct`. -/
def determine_match_status (j : Option Judge) (f : String) (gt pr : Value) :
    Option (String × String) :=
  matchCascade ["default_match", "json_partial_correct"] j f
    (strip (pyStr gt)) (strip (pyStr pr))

/-- `PredictionComparator._determine_match_status` of `jyotsana_code.py`:
identical cascade, but only `json_partial_correct` is match-equivalent. -/
def jyDetermineMatchStatus (j : Option Judge) (f : String) (gt pr : Value) :
    Option (String × String) :=
  matchCascade ["json_partial_correct"] j f (strip (pyStr gt)) (strip (pyStr pr))

/-- The toggle special case of the reference-present/candidate-absent
branch (`pipeline_4.py` lines 336-346): subtype `correctly_absent_as_hidden`
when the rendered reference parses as JSON whose `hidden` attribute `is
True`; `N/A` otherwise.  `gt_json.get` on a decoded list (or other
non-dict) raises an `AttributeError` that the branch's
`except json.JSONDecodeError` does not catch — modelled as `none`. -/
def absentSubtype (field : String) (gtVal : Value) : Option String :=
  if pyStartsWith field ("toggle-") then
    let s := format_value gtVal
    if is_json_string s then
      match json_loads s with
      | some (.obj m) =>
        some (if lookupV m "hidden" = some (Value.bool true)
              then "correctly_absent_as_hidden" else "N/A")
      | some _ => none
      | none => some "N/A"
    else some "N/A"
  else some "N/A"

/-- One (field, candidate) classification of
`compare_and_generate_report` (`pipeline_4.py` lines 333-350): dispatch on
the two presence flags; `none` models an uncaught exception. -/
def fieldOutcome (j : Option Judge) (field : String) (gtPresent : Bool) (gtVal : Value)
    (prPresent : Bool) (prVal : Value) : Option (String × String) :=
  if gtPresent && prPresent then determine_match_status j field gtVal prVal
  else if gtPresent && !prPresent then
    (absentSubtype field gtVal).map (fun mt => ("GT Present PR Absent", mt))
  else if !gtPresent && prPresent then some ("GT Absent PR Present", "N/A")
  else some ("GT Absent PR Absent", "N/A")

/-- One (field, candidate) classification of `compare_single_prediction`
(`jyotsana_code.py` lines 452-482).  The source first sets
`status, match_type` when the raw predicted value equals the string
`"none"`, but the exhaustive `if`/`elif`/`else` chain that follows
reassigns both variables in every case, so that assignment is dead — kept
here as the unused `_dead` binding. -/
def jyFieldOutcome (j : Option Judge) (field : String) (gtPresent : Bool) (gtVal : Value)
    (prPresent : Bool) (prVal : Value) : Option (String × String) :=
  let _dead : Option (String × String) :=
    if prVal = Value.str "none" then some ("GT Absent PR Absent", "N/A") else none
  if gtPresent && prPresent then jyDetermineMatchStatus j field gtVal prVal
  else if gtPresent && !prPresent then
    (absentSubtype field gtVal).map (fun mt => ("GT Present PR Absent", mt))
  else if !gtPresent && prPresent then some ("GT Absent PR Present", "N/A")
  else some ("GT Absent PR Absent", "N/A")

/-- The `IGNORED_FIELDS` configuration constant of `pipeline_4.py`. -/
def IGNORED_FIELDS : List String :=
  ["filedestination", "filename", "lookback", "integrationmode",
   "notificationemailaddress", "notificationstart", "notificationwarning",
   "notificationfailure", "notificationsuccess", "notificationcreateticket",
   "requiresfileinput", "eventinginfo", "eventbasedtriggers",
   "publishingconfiguration", "integrationid", "tenantid",
   "integrationname", "vendor", "filetypeid", "customername",
   "createddate", "updateddate", "deleted", "runtype",
   "runautomatically", "cron", "_source_file", "_tenant_id",
   "ui_statusmap", "globaltenantid"]

/-- Ordered insertion of a string (device for `sorted`). -/
def insertStr (a : String) : List String → List String
  | [] => [a]
  | b :: rest => if pyStrLe a b then a :: b :: rest else b :: insertStr a rest

/-- Embedding of Python's `sorted` on field names (lexicographic). -/
def sortStrs : List String → List String
  | [] => []
  | a :: rest => insertStr a (sortStrs rest)

/-- The field universe of `compare_and_generate_report` (lines 322-324):
catalogue fields united with reference keys and all candidate keys, then
filtered by the (lower-cased) ignore list, then sorted. -/
def finalFields (gtData : List (String × Value)) (prs : List (List (String × Value)))
    (exhaustive : List String) : List String :=
  sortStrs
    (((exhaustive ++ gtData.map Prod.fst ++ (prs.map (fun pr => pr.map Prod.fst)).flatten).dedup).filter
      (fun f => !(IGNORED_FIELDS.contains (lowerStr f))))

/-- One reconciliation row: the field name, the rendered reference value,
and per candidate version the rendered value with its (status, subtype). -/
structure Row where
  fieldName : String
  gtValue : String
  cells : List (String × String × String)

/-- `Option`-valued `mapM` (an uncaught exception in one element aborts
the whole traversal, as in the Python loop). -/
def optMapM (f : α → Option β) : List α → Option (List β)
  | [] => some []
  | a :: l =>
    match f a, optMapM f l with
    | some b, some bs => some (b :: bs)
    | _, _ => none

/-- Assembly of one row of the report (`pipeline_4.py` lines 327-354). -/
def buildRow (j : Option Judge) (gtData : List (String × Value))
    (prs : List (List (String × Value))) (field : String) : Option Row :=
  let gtPresent := (lookupV gtData field).isSome
  let gtVal := (lookupV gtData field).getD Value.null
  (optMapM (fun pr =>
      let prPresent := (lookupV pr field).isSome
      let prVal := (lookupV pr field).getD Value.null
      (fieldOutcome j field gtPresent gtVal prPresent prVal).map
        (fun sm => (format_value prVal, sm.1, sm.2))) prs).map
    (fun cells => { fieldName := field, gtValue := format_value gtVal, cells := cells })

/-- `compare_and_generate_report` up to the CSV sink: `none` when the
ground truth is empty (the early return) or when classifying some field
raises; otherwise the produced rows in field order. -/
def buildReport (j : Option Judge) (gtData : List (String × Value))
    (prs : List (List (String × Value))) (exhaustive : List String) :
    Option (List Row) :=
  if gtData.isEmpty then none
  else optMapM (buildRow j gtData prs) (finalFields gtData prs exhaustive)

/-- Top-level copy loop of `_load_ground_truth_data` (lines 306-308):
skip the embedded-field-list and deletion-marker keys and null values,
lower-case the rest. -/
def gtTop (items : List (String × Value)) : List (String × Value) :=
  items.foldl
    (fun acc p =>
      if (lowerStr p.1 ≠ "filetransferfields" ∧ lowerStr p.1 ≠ "deleted") ∧ p.2 ≠ Value.null
      then dictInsert acc (lowerStr p.1) p.2
      else acc)
    []

/-- One `fileTransferFields` entry of `_load_ground_truth_data` (lines
310-312): `field.get('key')` / `field.get('value')`, write under the
lower-cased key when the key is truthy.  `none` models the exceptions the
surrounding `except` turns into an empty result: `.get` on a non-dict
entry, `.lower()` on a truthy non-string key. -/
def gtEntryStep (acc : List (String × Value)) (e : Value) :
    Option (List (String × Value)) :=
  match e with
  | .obj fm =>
    let fk := (lookupV fm "key").getD Value.null
    let fv := (lookupV fm "value").getD Value.null
    if truthy fk then
      match fk with
      | .str s => some (dictInsert acc (lowerStr s) fv)
      | _ => none
    else some acc
  | _ => none

/-- `Option`-valued `foldl` for the entry loop. -/
def optFoldlM (f : β → α → Option β) : β → List α → Option β
  | b, [] => some b
  | b, a :: l =>
    match f b a with
    | some b2 => optFoldlM f b2 l
    | none => none

/-- The final `{k.lower(): v for k, v in gt_data.items()}` comprehension
(line 313). -/
def rebuildLower (m : List (String × Value)) : List (String × Value) :=
  m.foldl (fun acc p => dictInsert acc (lowerStr p.1) p.2) []

/-- `PredictionComparator._load_ground_truth_data` of `pipeline_4.py`
applied to the decoded ground-truth JSON: top-level copy, embedded
field-list overwrite, final lower-casing comprehension.  Any exception
(non-dict instance, malformed entry) yields the empty record, as the
`except` clause returns `{}`. -/
def loadGroundTruth (raw : Value) : List (String × Value) :=
  match raw with
  | .obj items =>
    let base := gtTop items
    let afterFtf :=
      match lookupV items "fileTransferFields" with
      | some (.arr entries) => optFoldlM gtEntryStep base entries
      | _ => some base
    match afterFtf with
    | some m => rebuildLower m
    | none => []
  | _ => []

/-- One embedded field-list entry as the specification words it: write
the entry's value under its lower-cased key when the key is a non-empty
string, overwriting; otherwise leave the record unchanged. -/
def gtEntrySpecStep (acc : List (String × Value)) (e : Value) : List (String × Value) :=
  match e with
  | .obj fm =>
    match lookupV fm "key" with
    | some (.str s) =>
      if s ≠ "" then dictInsert acc (lowerStr s) ((lookupV fm "value").getD Value.null)
      else acc
    | _ => acc
  | _ => acc

/-- Reference normalization as the specification words it (for the
refinement comparison with `loadGroundTruth`): copy every top-level
attribute except the embedded-field-list key and the deletion-marker key,
dropping null values and lower-casing keys; then write each embedded
entry with a non-empty key under its lower-cased key, overwriting. -/
def loadGroundTruthSpec (raw : Value) : List (String × Value) :=
  match raw with
  | .obj items =>
    let base := items.foldl
      (fun acc p =>
        if (lowerStr p.1 ≠ "filetransferfields" ∧ lowerStr p.1 ≠ "deleted") ∧ p.2 ≠ Value.null
        then dictInsert acc (lowerStr p.1) p.2
        else acc)
      []
    let entries :=
      match lookupV items "fileTransferFields" with
      | some (.arr l) => l
      | _ => []
    entries.foldl gtEntrySpecStep base
  | _ => []

/-- Well-formedness of one embedded field-list entry: a mapping whose
`key` attribute is absent or a string (the shapes on which the loader
does not raise). -/
def wfEntry : Value → Bool
  | .obj fm =>
    match lookupV fm "key" with
    | none => true
    | some (.str _) => true
    | some _ => false
  | _ => false

/-- The embedded field-list entries of a decoded reference record. -/
def ftfEntries (items : List (String × Value)) : List Value :=
  match lookupV items "fileTransferFields" with
  | some (.arr l) => l
  | _ => []

/-- The lower-cased key an embedded entry writes to, when it writes. -/
def entryKeyLower : Value → Option String
  | .obj fm =>
    match lookupV fm "key" with
    | some (.str s) => if s ≠ "" then some (lowerStr s) else none
    | _ => none
  | _ => none

/-! ## Helper lemmas -/

theorem dropWhile_dropWhile_of_imp {p q : Char → Bool}
    (hpq : ∀ c, q c = true → p c = true) :
    ∀ l : List Char, (l.dropWhile p).dropWhile q = l.dropWhile p := by
  intro l
  induction l with
  | nil => rfl
  | cons x xs ih =>
    by_cases hx : p x = true
    · simp [List.dropWhile, hx, ih]
    · have hq : ¬ q x = true := fun hc => hx (hpq x hc)
      simp [List.dropWhile, hx, hq]

theorem isJsonWS_imp_pyIsSpace : ∀ c, isJsonWS c = true → pyIsSpace c = true := by
  intro c h
  simp only [isJsonWS, decide_eq_true_eq] at h
  simp only [pyIsSpace, decide_eq_true_eq]
  tauto

theorem skipWS_strip (s : String) : skipWS (strip s).data = (strip s).data := by
  show ((s.data.reverse.dropWhile pyIsSpace).reverse.dropWhile pyIsSpace).dropWhile isJsonWS
      = (s.data.reverse.dropWhile pyIsSpace).reverse.dropWhile pyIsSpace
  exact dropWhile_dropWhile_of_imp isJsonWS_imp_pyIsSpace _

theorem lookupV_dictInsert_self (m : List (String × Value)) (k : String) (v : Value) :
    lookupV (dictInsert m k v) k = some v := by
  induction m with
  | nil => simp [dictInsert, lookupV]
  | cons p rest ih =>
    by_cases h : p.1 = k
    · simp [dictInsert, lookupV, h]
    · simp [dictInsert, lookupV, h, ih]

theorem lookupV_dictInsert_ne (m : List (String × Value)) (k k' : String) (v : Value)
    (h : k' ≠ k) : lookupV (dictInsert m k v) k' = lookupV m k' := by
  have h2 : ¬ k = k' := fun hh => h hh.symm
  induction m with
  | nil => simp [dictInsert, lookupV, h2]
  | cons p rest ih =>
    by_cases hp : p.1 = k
    · have h3 : ¬ p.1 = k' := by rw [hp]; exact h2
      simp [dictInsert, lookupV, hp, h2, h3]
    · by_cases hp' : p.1 = k'
      · simp [dictInsert, lookupV, hp, hp', h]
      · simp [dictInsert, lookupV, hp, hp', ih]

theorem mem_insertStr (a x : String) (l : List String) :
    x ∈ insertStr a l ↔ x = a ∨ x ∈ l := by
  induction l with
  | nil => simp [insertStr]
  | cons b rest ih =>
    by_cases h : pyStrLe a b = true
    · simp [insertStr, h]
    · simp [insertStr, h, ih]
      tauto

theorem mem_sortStrs (x : String) (l : List String) : x ∈ sortStrs l ↔ x ∈ l := by
  induction l with
  | nil => simp [sortStrs]
  | cons b rest ih => simp [sortStrs, mem_insertStr, ih]

theorem parseVal_obj_head (fuel : Nat) (cs : List Char) (m : List (String × Value))
    (r : List Char) (h : parseVal fuel cs = some (Value.obj m, r)) :
    ∃ t, cs = cLBrace :: t := by
  match fuel, cs with
  | 0, cs => simp [parseVal] at h
  | fuel + 1, [] => simp [parseVal] at h
  | fuel + 1, c :: rest =>
    by_cases h1 : c = cLBrace
    · exact ⟨rest, by rw [h1]⟩
    · exfalso
      simp only [parseVal, h1, if_false] at h
      repeat' split at h
      all_goals simp_all [Option.map_eq_some', parseNum]
      all_goals (repeat' split at h)
      all_goals simp_all [Option.map_eq_some']

theorem parseVal_arr_head (fuel : Nat) (cs : List Char) (l : List Value)
    (r : List Char) (h : parseVal fuel cs = some (Value.arr l, r)) :
    ∃ t, cs = '[' :: t := by
  match fuel, cs with
  | 0, cs => simp [parseVal] at h
  | fuel + 1, [] => simp [parseVal] at h
  | fuel + 1, c :: rest =>
    by_cases h1 : c = '['
    · exact ⟨rest, by rw [h1]⟩
    · exfalso
      simp only [parseVal, h1, if_false] at h
      repeat' split at h
      all_goals simp_all [Option.map_eq_some', parseNum]
      all_goals (repeat' split at h)
      all_goals simp_all [Option.map_eq_some']

theorem is_json_string_of_loads_obj (s : String) (m : List (String × Value))
    (hs : skipWS s.data = s.data) (h : json_loads s = some (Value.obj m)) :
    is_json_string s = true := by
  have hsome : (json_loads s).isSome = true := by rw [h]; rfl
  unfold json_loads at h
  rw [hs] at h
  rcases hp : parseVal (jsonFuel s) s.data with _ | ⟨v, rest⟩
  · rw [hp] at h; exact Option.noConfusion h
  · rw [hp] at h
    dsimp only at h
    by_cases ht : skipWS rest = []
    · rw [if_pos ht] at h
      have hv : v = Value.obj m := Option.some.inj h
      subst hv
      obtain ⟨t, hcs⟩ := parseVal_obj_head _ _ _ _ hp
      unfold is_json_string
      rw [hcs]
      simp [hsome]
    · rw [if_neg ht] at h; exact Option.noConfusion h

theorem is_json_string_of_loads_arr (s : String) (l : List Value)
    (hs : skipWS s.data = s.data) (h : json_loads s = some (Value.arr l)) :
    is_json_string s = true := by
  have hsome : (json_loads s).isSome = true := by rw [h]; rfl
  unfold json_loads at h
  rw [hs] at h
  rcases hp : parseVal (jsonFuel s) s.data with _ | ⟨v, rest⟩
  · rw [hp] at h; exact Option.noConfusion h
  · rw [hp] at h
    dsimp only at h
    by_cases ht : skipWS rest = []
    · rw [if_pos ht] at h
      have hv : v = Value.arr l := Option.some.inj h
      subst hv
      obtain ⟨t, hcs⟩ := parseVal_arr_head _ _ _ _ hp
      unfold is_json_string
      rw [hcs]
      simp [hsome]
    · rw [if_neg ht] at h; exact Option.noConfusion h

theorem containsHidden_of_lookup (m : List (String × Value)) (v : Value)
    (h : lookupV m "hidden" = some v) : containsHidden (Value.obj m) = true := by
  induction m with
  | nil => simp [lookupV] at h
  | cons p rest ih =>
    by_cases hp : p.1 = "hidden"
    · simp [containsHidden, List.any_cons, hp]
    · rw [lookupV, if_neg hp] at h
      simp [containsHidden, List.any_cons] at ih ⊢
      exact Or.inr (ih h)

theorem pyEq_refl (a : Value) : pyEq a a = true := by simp [pyEq]

theorem elemEq_refl (v : Value) : elemEq v v = true := by
  cases v with
  | obj m =>
    unfold elemEq
    rw [Bool.and_eq_true]
    constructor <;>
    · rw [List.all_eq_true]
      intro p hp
      rw [List.any_eq_true]
      exact ⟨p, hp, by simp [pyEq_refl]⟩
  | null => simp [elemEq, pyEq_refl]
  | bool b => simp [elemEq, pyEq_refl]
  | num n => simp [elemEq, pyEq_refl]
  | str s => simp [elemEq, pyEq_refl]
  | arr l => simp [elemEq, pyEq_refl]

theorem all_any_elemEq_of_mem_imp (xs ys : List Value)
    (h : ∀ x, x ∈ xs → x ∈ ys) :
    xs.all (fun x => ys.any (fun y => elemEq x y)) = true := by
  rw [List.all_eq_true]
  intro x hx
  rw [List.any_eq_true]
  exact ⟨x, h x hx, elemEq_refl x⟩

theorem all_any_elemEq_flip_of_mem_imp (xs ys : List Value)
    (h : ∀ x, x ∈ xs → x ∈ ys) :
    xs.all (fun y => ys.any (fun x => elemEq x y)) = true := by
  rw [List.all_eq_true]
  intro x hx
  rw [List.any_eq_true]
  exact ⟨x, h x hx, elemEq_refl x⟩

theorem toggleStep_some_some (f g p : String) (r : String × String)
    (h : toggleStep f g p = some (some r)) :
    r = ("GT Present PR Present and match", "toggle_match_hidden_only") ∨
    r = ("GT Present PR Present but mismatch", "incorrect_toggle_hidden_mismatch") := by
  unfold toggleStep at h
  repeat' split at h
  all_goals simp_all

theorem matchCascade_status (accept : List String) (j : Option Judge) (f g p : String)
    (r : String × String) (h : matchCascade accept j f g p = some r) :
    r.1 = "GT Present PR Present and match" ∨ r.1 = "GT Present PR Present but mismatch" := by
  unfold matchCascade at h
  split at h
  · left; rw [← Option.some.inj h]
  · split at h
    · rename_i ropt hts
      rcases ropt with _ | rr
      · exact Option.noConfusion h
      · have := toggleStep_some_some f g p r (by rw [hts, Option.some.inj h])
        rcases this with h1 | h1
        · left; rw [h1]
        · right; rw [h1]
    · split at h
      · left; rw [← Option.some.inj h]
      · split at h
        · right; rw [← Option.some.inj h]
        · rw [← Option.some.inj h]
          split
          · left; rfl
          · right; rfl

/-! ## Claim C1 -/

/-- C1 (counterexample): the claim says the match-resolution sub-cascade
operates on the `_format_value` rendering (null → empty string,
mapping/sequence → canonical JSON text, else string form) trimmed.  At
the concrete field value pair (the mapping `a ↦ 1`, the string
`{"a": 1}`) the code's outcome differs from the cascade run on those
renderings: the code compares `str()` renderings, which disagree. -/
theorem c1_counterexample :
    determine_match_status none "f" (Value.obj [("a", Value.num 1)])
        (Value.str "\x7b\"a\": 1\x7d") ≠
      matchCascade ["default_match", "json_partial_correct"] none "f"
        (strip (format_value (Value.obj [("a", Value.num 1)])))
        (strip (format_value (Value.str "\x7b\"a\": 1\x7d"))) := by
  decide

/-- C1 (amended): the match-resolution sub-cascade operates on the
Python `str()` rendering of each value trimmed of surrounding whitespace
(null renders to `None`, booleans to `True`/`False`, mappings and
sequences to their Python literal text), not on the `_format_value`
rendering used for the output columns: the outcome depends on the values
only through their stripped `str()` renderings. -/
theorem c1_amended (j : Option Judge) (f : String) (gt gt' pr pr' : Value)
    (hg : strip (pyStr gt) = strip (pyStr gt'))
    (hp : strip (pyStr pr) = strip (pyStr pr')) :
    determine_match_status j f gt pr = determine_match_status j f gt' pr' := by
  unfold determine_match_status
  rw [hg, hp]

/-- C1 witness: `None` (null) and the string `"None"` have the same
`str()` rendering, hence the same outcome. -/
theorem c1_witness :
    determine_match_status none "f" Value.null (Value.str "x") =
      determine_match_status none "f" (Value.str "None") (Value.str "x") :=
  c1_amended none "f" Value.null (Value.str "None") (Value.str "x") (Value.str "x")
    (by rfl) (by rfl)

/-! ## Claim C3 -/

/-- C3 (counterexample): when the judge is configured but its call raises,
the outcome is (Mismatch, `llm_error`), not the (Mismatch, `incorrect`)
the claim states. -/
theorem c3_counterexample :
    determine_match_status (some (fun _ _ _ => Except.error ())) "f"
        (Value.str "a") (Value.str "b") =
      some ("GT Present PR Present but mismatch", "llm_error") ∧
    determine_match_status (some (fun _ _ _ => Except.error ())) "f"
        (Value.str "a") (Value.str "b") ≠
      some ("GT Present PR Present but mismatch", "incorrect") := by
  constructor
  · rfl
  · decide

/-- C3 (amended): a run with a judge whose every call raises agrees with
the judge-unavailable run on every field, except that the fallthrough
outcome (Mismatch, `incorrect`) becomes (Mismatch, `llm_error`); in
particular the failure never escapes the classifier (the two runs raise
on exactly the same inputs). -/
theorem c3_amended (jf : Judge) (hjf : ∀ a b c, jf a b c = Except.error ())
    (f : String) (gt pr : Value) :
    determine_match_status (some jf) f gt pr =
      (determine_match_status none f gt pr).map
        (fun r => if r = ("GT Present PR Present but mismatch", "incorrect")
                  then ("GT Present PR Present but mismatch", "llm_error") else r) := by
  unfold determine_match_status matchCascade
  by_cases hgp : strip (pyStr gt) = strip (pyStr pr)
  · simp [hgp]
  · rw [if_neg hgp, if_neg hgp]
    cases hts : toggleStep f (strip (pyStr gt)) (strip (pyStr pr)) with
    | some ropt =>
      cases ropt with
      | none => simp
      | some r =>
        rcases toggleStep_some_some _ _ _ r hts with h1 | h1 <;> subst h1 <;> simp
    | none =>
      by_cases hjson : (is_json_string (strip (pyStr gt)) &&
          is_json_string (strip (pyStr pr)) &&
          compare_json_values (strip (pyStr gt)) (strip (pyStr pr))) = true
      · simp [hjson]
      · simp only [hjson, Bool.false_eq_true, if_false]
        have hres : judgeResult jf f (strip (pyStr gt)) (strip (pyStr pr)) = "llm_error" := by
          unfold judgeResult
          rw [hjf]
        simp [hres]

/-- C3 witness: instantiating the amended theorem at an always-raising
judge and a concrete unresolved field. -/
theorem c3_witness :
    determine_match_status (some (fun _ _ _ => Except.error ())) "w"
        (Value.str "x") (Value.str "y") =
      (determine_match_status none "w" (Value.str "x") (Value.str "y")).map
        (fun r => if r = ("GT Present PR Present but mismatch", "incorrect")
                  then ("GT Present PR Present but mismatch", "llm_error") else r) :=
  c3_amended (fun _ _ _ => Except.error ()) (fun _ _ _ => rfl) "w"
    (Value.str "x") (Value.str "y")

/-! ## Claim C5 -/

/-- C5 (confirmed): for a field with the toggle prefix whose two stripped
renderings parse as JSON objects both containing a `hidden` key, the
resulting Status is Match exactly when the two `hidden` values are
Python-equal and Mismatch otherwise, independently of all other keys. -/
theorem c5_toggle_law (j : Option Judge) (f : String) (gt pr : Value)
    (gm pm : List (String × Value)) (hg hp : Value)
    (hf : pyStartsWith f ("toggle-") = true)
    (hgj : json_loads (strip (pyStr gt)) = some (Value.obj gm))
    (hpj : json_loads (strip (pyStr pr)) = some (Value.obj pm))
    (hgh : lookupV gm "hidden" = some hg)
    (hph : lookupV pm "hidden" = some hp) :
    (determine_match_status j f gt pr).map Prod.fst =
      some (if pyEq hg hp then "GT Present PR Present and match"
            else "GT Present PR Present but mismatch") := by
  have hjsg : is_json_string (strip (pyStr gt)) = true :=
    is_json_string_of_loads_obj _ _ (skipWS_strip (pyStr gt)) hgj
  have hjsp : is_json_string (strip (pyStr pr)) = true :=
    is_json_string_of_loads_obj _ _ (skipWS_strip (pyStr pr)) hpj
  by_cases hgp : strip (pyStr gt) = strip (pyStr pr)
  · have hmm : gm = pm := by
      rw [hgp] at hgj
      exact Value.obj.inj (Option.some.inj (hgj.symm.trans hpj))
    subst hmm
    have hvv : hg = hp := Option.some.inj (hgh.symm.trans hph)
    subst hvv
    unfold determine_match_status matchCascade
    rw [if_pos hgp]
    simp [pyEq_refl]
  · have htog : toggleStep f (strip (pyStr gt)) (strip (pyStr pr)) =
        some (some
          (if pyEq hg hp then ("GT Present PR Present and match", "toggle_match_hidden_only")
           else ("GT Present PR Present but mismatch", "incorrect_toggle_hidden_mismatch"))) := by
      unfold toggleStep
      rw [if_pos (by rw [hf, hjsg, hjsp]; rfl)]
      rw [hgj, hpj]
      dsimp only
      rw [containsHidden_of_lookup gm hg hgh, containsHidden_of_lookup pm hp hph]
      rw [if_pos (show (true && true) = true from rfl)]
      rw [show subscriptHidden (Value.obj gm) = some hg from hgh,
          show subscriptHidden (Value.obj pm) = some hp from hph]
    unfold determine_match_status matchCascade
    rw [if_neg hgp, htog]
    cases hb : pyEq hg hp <;> simp [hb]

theorem buildRow_fieldName (j : Option Judge) (g : List (String × Value))
    (prs : List (List (String × Value))) (f : String) (row : Row)
    (h : buildRow j g prs f = some row) : row.fieldName = f := by
  unfold buildRow at h
  rcases Option.map_eq_some'.mp h with ⟨cells, _, hrow⟩
  rw [← hrow]

theorem optMapM_buildRow_names (j : Option Judge) (g : List (String × Value))
    (prs : List (List (String × Value))) :
    ∀ (fields : List String) (rows : List Row),
    optMapM (buildRow j g prs) fields = some rows →
    rows.map Row.fieldName = fields := by
  intro fields
  induction fields with
  | nil =>
    intro rows h
    rw [← Option.some.inj h]
    rfl
  | cons a l ih =>
    intro rows h
    unfold optMapM at h
    cases hb : buildRow j g prs a with
    | none => rw [hb] at h; exact Option.noConfusion h
    | some row =>
      cases hl : optMapM (buildRow j g prs) l with
      | none => rw [hb, hl] at h; exact Option.noConfusion h
      | some rs =>
        rw [hb, hl] at h
        rw [← Option.some.inj h]
        simp only [List.map_cons]
        rw [buildRow_fieldName j g prs a row hb, ih rs hl]

/-! ## Claim C2 -/

/-- C2 (code bug): the `pr_value == "none"` shortcut of
`compare_single_prediction` is dead — the exhaustive presence chain that
follows reassigns status and subtype unconditionally.  A field present in
both records whose candidate value is the literal string `none` therefore
goes through the both-present sub-cascade (here: Mismatch/`incorrect`
with no judge), while treating it as candidate-absent would have produced
(`GT Present PR Absent`, `N/A`) as the claim states. -/
theorem c2_none_shortcut_dead :
    jyFieldOutcome none "x" true (Value.str "a") true (Value.str "none") =
      some ("GT Present PR Present but mismatch", "incorrect") ∧
    jyFieldOutcome none "x" true (Value.str "a") false Value.null =
      some ("GT Present PR Absent", "N/A") := ⟨rfl, rfl⟩

/-! ## Claim C6 -/

/-- C6 (code bug): in the reference-present/candidate-absent branch, a
toggle-prefixed field whose reference renders to a JSON array makes
`gt_json.get('hidden')` raise an uncaught `AttributeError` (the branch
catches only `json.JSONDecodeError`), so no row with subtype `N/A` is
produced — the run aborts (modelled as `none`).  The hidden-true dict
case and the plain case behave as the claim states. -/
theorem c6_absent_subtype_eval :
    fieldOutcome none "toggle-x" true (Value.str "[1]") false Value.null = none ∧
    fieldOutcome none "toggle-x" true (Value.str "\x7b\"hidden\": true\x7d") false
        Value.null = some ("GT Present PR Absent", "correctly_absent_as_hidden") ∧
    fieldOutcome none "toggle-x" true (Value.str "\x7b\"hidden\": false\x7d") false
        Value.null = some ("GT Present PR Absent", "N/A") ∧
    fieldOutcome none "other" true (Value.str "v") false Value.null =
      some ("GT Present PR Absent", "N/A") := ⟨rfl, rfl, rfl, rfl⟩

/-! ## Claim C4 -/

/-- C4 (counterexample): the two renderings parse as JSON sequences that
differ only in element order (they are permutations and unequal), yet the
field is classified (Mismatch, `incorrect`), not (Match,
`json_partial_match`): the elements are lists, unhashable in Python, so
building the comparison sets raises `TypeError` and the bare `except`
returns `False`. -/
theorem c4_counterexample :
    json_loads (strip (pyStr (Value.str "[[1], [2]]"))) =
        some (Value.arr [Value.arr [Value.num 1], Value.arr [Value.num 2]]) ∧
    json_loads (strip (pyStr (Value.str "[[2], [1]]"))) =
        some (Value.arr [Value.arr [Value.num 2], Value.arr [Value.num 1]]) ∧
    [Value.arr [Value.num 1], Value.arr [Value.num 2]].Perm
        [Value.arr [Value.num 2], Value.arr [Value.num 1]] ∧
    determine_match_status none "rules" (Value.str "[[1], [2]]")
        (Value.str "[[2], [1]]") =
      some ("GT Present PR Present but mismatch", "incorrect") :=
  ⟨rfl, rfl, by decide, rfl⟩

/-- C4 (amended): for sequences that differ only in element order or in
duplicate counts (their deduplications are permutations), the field is
classified (Match, `json_partial_match`) provided every element converts
to a hashable set member (a scalar, or a mapping with scalar values —
otherwise the set construction raises and the comparison fails closed)
and, for toggle-prefixed fields, not both sequences contain the element
`"hidden"` (which would make the toggle branch raise an uncaught
`TypeError`). -/
theorem c4_amended (j : Option Judge) (f : String) (gt pr : Value) (gs ps : List Value)
    (hgj : json_loads (strip (pyStr gt)) = some (Value.arr gs))
    (hpj : json_loads (strip (pyStr pr)) = some (Value.arr ps))
    (hne : gs ≠ ps)
    (hperm : gs.dedup.Perm ps.dedup)
    (hhg : gs.all hashableElem = true)
    (hhp : ps.all hashableElem = true)
    (htg : ¬(pyStartsWith f ("toggle-") = true ∧
             gs.any (fun v => v = Value.str "hidden") = true ∧
             ps.any (fun v => v = Value.str "hidden") = true)) :
    determine_match_status j f gt pr =
      some ("GT Present PR Present and match", "json_partial_match") := by
  have hjsg : is_json_string (strip (pyStr gt)) = true :=
    is_json_string_of_loads_arr _ _ (skipWS_strip (pyStr gt)) hgj
  have hjsp : is_json_string (strip (pyStr pr)) = true :=
    is_json_string_of_loads_arr _ _ (skipWS_strip (pyStr pr)) hpj
  have hgp : strip (pyStr gt) ≠ strip (pyStr pr) := by
    intro hh
    rw [hh] at hgj
    exact hne (Value.arr.inj (Option.some.inj (hgj.symm.trans hpj)))
  have hmemg : ∀ x, x ∈ gs → x ∈ ps := by
    intro x hx
    exact List.mem_dedup.mp (hperm.mem_iff.mp (List.mem_dedup.mpr hx))
  have hmemp : ∀ x, x ∈ ps → x ∈ gs := by
    intro x hx
    exact List.mem_dedup.mp (hperm.mem_iff.mpr (List.mem_dedup.mpr hx))
  have hcmp : compare_json_values (strip (pyStr gt)) (strip (pyStr pr)) = true := by
    unfold compare_json_values
    rw [hgj, hpj]
    dsimp only
    rw [hhg, hhp]
    rw [if_pos (show (true && true) = true from rfl)]
    rw [all_any_elemEq_of_mem_imp gs ps hmemg, all_any_elemEq_flip_of_mem_imp ps gs hmemp]
    rfl
  have htog : toggleStep f (strip (pyStr gt)) (strip (pyStr pr)) = none := by
    unfold toggleStep
    by_cases hguard : (pyStartsWith f ("toggle-") && is_json_string (strip (pyStr gt)) &&
        is_json_string (strip (pyStr pr))) = true
    · rw [if_pos hguard]
      rw [hgj, hpj]
      dsimp only
      have hts : pyStartsWith f ("toggle-") = true := by
        rw [Bool.and_eq_true, Bool.and_eq_true] at hguard
        exact hguard.1.1
      have hnb : ¬((containsHidden (Value.arr gs) && containsHidden (Value.arr ps)) = true) := by
        intro hh
        rw [Bool.and_eq_true] at hh
        exact htg ⟨hts, hh.1, hh.2⟩
      rw [if_neg hnb]
    · rw [if_neg hguard]
  unfold determine_match_status matchCascade
  rw [if_neg hgp, htog]
  rw [hjsg, hjsp, hcmp]
  rfl

/-- C4 witness: sequences differing in order and duplicate count, with
hashable (integer) elements, classify as `json_partial_match`. -/
theorem c4_witness :
    determine_match_status none "f" (Value.str "[1, 2]") (Value.str "[2, 1, 1]") =
      some ("GT Present PR Present and match", "json_partial_match") :=
  c4_amended none "f" (Value.str "[1, 2]") (Value.str "[2, 1, 1]")
    [Value.num 1, Value.num 2] [Value.num 2, Value.num 1, Value.num 1]
    rfl rfl (by decide) (by decide) (by decide) (by decide) (by decide)

/-- C5 witness: toggle JSON objects whose `hidden` values are the
boolean `true` and the number 1 — Python-equal — with different other
keys, classify as Match. -/
theorem c5_witness :
    (determine_match_status none "toggle-a"
        (Value.str "\x7b\"hidden\": true, \"x\": 1\x7d")
        (Value.str "\x7b\"hidden\": 1\x7d")).map Prod.fst =
      some ("GT Present PR Present and match") :=
  (c5_toggle_law none "toggle-a"
      (Value.str "\x7b\"hidden\": true, \"x\": 1\x7d")
      (Value.str "\x7b\"hidden\": 1\x7d")
      [("hidden", Value.bool true), ("x", Value.num 1)] [("hidden", Value.num 1)]
      (Value.bool true) (Value.num 1)
      (by rfl) (by rfl) (by rfl) (by rfl) (by rfl)).trans (by rfl)

theorem toNat_ofNat_valid (n : Nat) (h : n.isValidChar) : (Char.ofNat n).toNat = n := by
  simp [Char.ofNat, Char.toNat, h, Char.ofNatAux]
  rfl

theorem lowerChar_idem (c : Char) : lowerChar (lowerChar c) = lowerChar c := by
  unfold lowerChar
  by_cases h : 65 ≤ c.toNat ∧ c.toNat ≤ 90
  · rw [if_pos h]
    have hv : (c.toNat + 32).isValidChar := Or.inl (by omega)
    rw [toNat_ofNat_valid _ hv] at *
    rw [if_neg (by omega)]
  · rw [if_neg h, if_neg h]

theorem lowerStr_idem (s : String) : lowerStr (lowerStr s) = lowerStr s := by
  unfold lowerStr
  show String.mk ((s.data.map lowerChar).map lowerChar) = String.mk (s.data.map lowerChar)
  rw [List.map_map]
  congr 1
  exact List.map_congr_left (fun a _ => lowerChar_idem a)

theorem dictInsert_of_not_mem (m : List (String × Value)) (k : String) (v : Value)
    (h : ∀ q ∈ m, q.1 ≠ k) : dictInsert m k v = m ++ [(k, v)] := by
  induction m with
  | nil => rfl
  | cons q rest ih =>
    rw [dictInsert, if_neg (h q (by simp))]
    rw [ih (fun p hp => h p (by simp [hp]))]
    rfl

theorem dictInsert_key_mem (m : List (String × Value)) (k : String) (v : Value) :
    ∀ q ∈ dictInsert m k v, q.1 = k ∨ q ∈ m := by
  induction m with
  | nil => intro q hq; simp [dictInsert] at hq; simp [hq]
  | cons p rest ih =>
    intro q hq
    by_cases hp : p.1 = k
    · rw [dictInsert, if_pos hp] at hq
      rcases List.mem_cons.mp hq with hq | hq
      · left; rw [hq]
      · right; exact List.mem_cons_of_mem p hq
    · rw [dictInsert, if_neg hp] at hq
      rcases List.mem_cons.mp hq with hq | hq
      · right; rw [hq]; exact List.mem_cons_self p rest
      · rcases ih q hq with h | h
        · left; exact h
        · right; exact List.mem_cons_of_mem p h

theorem dictInsert_map_fst (m : List (String × Value)) (k : String) (v : Value) :
    (dictInsert m k v).map Prod.fst =
      if k ∈ m.map Prod.fst then m.map Prod.fst
      else m.map Prod.fst ++ [k] := by
  induction m with
  | nil => simp [dictInsert]
  | cons q rest ih =>
    by_cases h : q.1 = k
    · simp [dictInsert, h, List.mem_cons]
    · have hne : ¬ k = q.1 := fun hh => h hh.symm
      by_cases hc : k ∈ rest.map Prod.fst
      · simp [dictInsert, h, ih, hc, List.mem_cons, hne]
      · simp [dictInsert, h, ih, hc, List.mem_cons, hne]

theorem dictInsert_nodup (m : List (String × Value)) (k : String) (v : Value)
    (h : (m.map Prod.fst).Nodup) : ((dictInsert m k v).map Prod.fst).Nodup := by
  rw [dictInsert_map_fst]
  by_cases hc : k ∈ m.map Prod.fst
  · rw [if_pos hc]; exact h
  · rw [if_neg hc]
    simp [List.nodup_append, h, hc]

theorem foldl_inv_step {α : Type} (step : List (String × Value) → α → List (String × Value))
    (hstep : ∀ acc a, (∀ p ∈ acc, lowerStr p.1 = p.1) → ((acc.map Prod.fst).Nodup) →
      (∀ p ∈ step acc a, lowerStr p.1 = p.1) ∧ ((step acc a).map Prod.fst).Nodup) :
    ∀ (l : List α) (acc : List (String × Value)),
      (∀ p ∈ acc, lowerStr p.1 = p.1) → ((acc.map Prod.fst).Nodup) →
      (∀ p ∈ l.foldl step acc, lowerStr p.1 = p.1) ∧
        ((l.foldl step acc).map Prod.fst).Nodup := by
  intro l
  induction l with
  | nil => intro acc h1 h2; exact ⟨h1, h2⟩
  | cons a t ih =>
    intro acc h1 h2
    rw [List.foldl_cons]
    obtain ⟨g1, g2⟩ := hstep acc a h1 h2
    exact ih _ g1 g2

theorem insert_step_inv (acc : List (String × Value)) (k : String) (v : Value)
    (h1 : ∀ p ∈ acc, lowerStr p.1 = p.1) (h2 : (acc.map Prod.fst).Nodup) :
    (∀ p ∈ dictInsert acc (lowerStr k) v, lowerStr p.1 = p.1) ∧
      ((dictInsert acc (lowerStr k) v).map Prod.fst).Nodup := by
  constructor
  · intro p hp
    rcases dictInsert_key_mem _ _ _ p hp with h | h
    · rw [h]; exact lowerStr_idem k
    · exact h1 p h
  · exact dictInsert_nodup _ _ _ h2

theorem gtTop_inv (items : List (String × Value)) :
    (∀ p ∈ gtTop items, lowerStr p.1 = p.1) ∧ ((gtTop items).map Prod.fst).Nodup := by
  unfold gtTop
  refine foldl_inv_step _ ?_ items [] (by intro p hp; cases hp) (by simp)
  intro acc a h1 h2
  dsimp only
  split
  · exact insert_step_inv acc a.1 a.2 h1 h2
  · exact ⟨h1, h2⟩

theorem foldl_rebuild_append :
    ∀ (m acc : List (String × Value)),
    (∀ p ∈ m, lowerStr p.1 = p.1) → ((m.map Prod.fst).Nodup) →
    (∀ p ∈ m, ∀ q ∈ acc, q.1 ≠ p.1) →
    m.foldl (fun acc2 p => dictInsert acc2 (lowerStr p.1) p.2) acc = acc ++ m := by
  intro m
  induction m with
  | nil => intro acc _ _ _; simp
  | cons p t ih =>
    intro acc h1 h2 h3
    rw [List.foldl_cons]
    have hl : lowerStr p.1 = p.1 := h1 p (by simp)
    rw [hl]
    rw [dictInsert_of_not_mem acc p.1 p.2 (fun q hq => h3 p (by simp) q hq)]
    have hpt : p.1 ∉ t.map Prod.fst := by
      simp only [List.map_cons, List.nodup_cons] at h2
      exact h2.1
    rw [ih (acc ++ [(p.1, p.2)])
      (fun q hq => h1 q (by simp [hq]))
      (by simp only [List.map_cons, List.nodup_cons] at h2; exact h2.2)
      ?_]
    · simp
    · intro p2 hp2 q hq
      rcases List.mem_append.mp hq with hq | hq
      · exact h3 p2 (by simp [hp2]) q hq
      · have : q = (p.1, p.2) := by simpa using hq
        rw [this]
        intro hc
        exact hpt (by rw [hc]; exact List.mem_map_of_mem Prod.fst hp2)

theorem rebuildLower_fix (m : List (String × Value))
    (h1 : ∀ p ∈ m, lowerStr p.1 = p.1) (h2 : (m.map Prod.fst).Nodup) :
    rebuildLower m = m := by
  unfold rebuildLower
  have := foldl_rebuild_append m [] h1 h2 (by intro p _ q hq; cases hq)
  simpa using this

theorem gtEntryStep_wf (acc : List (String × Value)) (e : Value)
    (hwf : wfEntry e = true) :
    gtEntryStep acc e = some (gtEntrySpecStep acc e) := by
  cases e with
  | obj fm =>
    simp only [wfEntry] at hwf
    simp only [gtEntryStep, gtEntrySpecStep]
    cases hk : lookupV fm "key" with
    | none => simp [hk, truthy]
    | some v =>
      rw [hk] at hwf
      cases v with
      | str s =>
        by_cases hs : s = ""
        · simp [hk, hs, truthy]
        · simp [hk, hs, truthy]
      | null => simp at hwf
      | bool b => simp at hwf
      | num n => simp at hwf
      | arr l => simp at hwf
      | obj m2 => simp at hwf
  | null => simp [wfEntry] at hwf
  | bool b => simp [wfEntry] at hwf
  | num n => simp [wfEntry] at hwf
  | str s => simp [wfEntry] at hwf
  | arr l => simp [wfEntry] at hwf

theorem optFoldlM_gtEntry (entries : List Value)
    (hwf : ∀ e ∈ entries, wfEntry e = true) :
    ∀ acc, optFoldlM gtEntryStep acc entries =
      some (entries.foldl gtEntrySpecStep acc) := by
  induction entries with
  | nil => intro acc; rfl
  | cons e t ih =>
    intro acc
    rw [optFoldlM, gtEntryStep_wf acc e (hwf e (by simp))]
    dsimp only
    rw [ih (fun e2 he2 => hwf e2 (by simp [he2])) (gtEntrySpecStep acc e)]
    rw [List.foldl_cons]

theorem loadGroundTruth_eq_spec (items : List (String × Value))
    (hwf : ∀ e ∈ ftfEntries items, wfEntry e = true) :
    loadGroundTruth (Value.obj items) = loadGroundTruthSpec (Value.obj items) := by
  unfold loadGroundTruth loadGroundTruthSpec ftfEntries at *
  cases hftf : lookupV items "fileTransferFields" with
  | none =>
    simp only [hftf]
    exact rebuildLower_fix _ (gtTop_inv items).1 (gtTop_inv items).2
  | some v =>
    cases v with
    | arr entries =>
      rw [hftf] at hwf
      simp only [hftf]
      rw [optFoldlM_gtEntry entries hwf (gtTop items)]
      have hinv := foldl_inv_step gtEntrySpecStep
        ?_ entries (gtTop items) (gtTop_inv items).1 (gtTop_inv items).2
      · exact rebuildLower_fix _ hinv.1 hinv.2
      · intro acc a h1 h2
        cases a with
        | obj fm =>
          simp only [gtEntrySpecStep]
          cases lookupV fm "key" with
          | none => exact ⟨h1, h2⟩
          | some w =>
            cases w with
            | str s =>
              dsimp only
              by_cases hs : s = ""
              · rw [if_neg (by simp [hs])]
                exact ⟨h1, h2⟩
              · rw [if_pos hs]
                exact insert_step_inv acc s _ h1 h2
            | null => exact ⟨h1, h2⟩
            | bool b => exact ⟨h1, h2⟩
            | num n => exact ⟨h1, h2⟩
            | arr l => exact ⟨h1, h2⟩
            | obj m2 => exact ⟨h1, h2⟩
        | null => exact ⟨h1, h2⟩
        | bool b => exact ⟨h1, h2⟩
        | num n => exact ⟨h1, h2⟩
        | str s => exact ⟨h1, h2⟩
        | arr l => exact ⟨h1, h2⟩
    | null =>
      simp only [hftf]
      exact rebuildLower_fix _ (gtTop_inv items).1 (gtTop_inv items).2
    | bool b =>
      simp only [hftf]
      exact rebuildLower_fix _ (gtTop_inv items).1 (gtTop_inv items).2
    | num n =>
      simp only [hftf]
      exact rebuildLower_fix _ (gtTop_inv items).1 (gtTop_inv items).2
    | str s =>
      simp only [hftf]
      exact rebuildLower_fix _ (gtTop_inv items).1 (gtTop_inv items).2
    | obj m2 =>
      simp only [hftf]
      exact rebuildLower_fix _ (gtTop_inv items).1 (gtTop_inv items).2

/-! ## Claim C8 -/

/-- C8 (confirmed): on any reference record whose embedded field-list
entries are well-formed (mappings whose `key` is absent or a string — the
shapes on which the loader does not raise), the loader equals the
specification's normalization: copy top-level attributes except the
embedded-field-list and deletion-marker keys, dropping nulls and
lower-casing keys, then write each entry with a non-empty key under its
lower-cased key, overwriting. -/
theorem c8_reference_normalization (items : List (String × Value))
    (hwf : ∀ e ∈ ftfEntries items, wfEntry e = true) :
    loadGroundTruth (Value.obj items) = loadGroundTruthSpec (Value.obj items) :=
  loadGroundTruth_eq_spec items hwf

/-- C8 witness: a record exercising the null drop, the structural-key
exclusions and an embedded overwrite of a top-level attribute. -/
theorem c8_witness :
    loadGroundTruth (Value.obj
      [("Name", Value.str "t"), ("Gone", Value.null), ("deleted", Value.bool false),
       ("fileTransferFields", Value.arr
         [Value.obj [("key", Value.str "NAME"), ("value", Value.str "override")]])]) =
    loadGroundTruthSpec (Value.obj
      [("Name", Value.str "t"), ("Gone", Value.null), ("deleted", Value.bool false),
       ("fileTransferFields", Value.arr
         [Value.obj [("key", Value.str "NAME"), ("value", Value.str "override")]])]) :=
  c8_reference_normalization
    [("Name", Value.str "t"), ("Gone", Value.null), ("deleted", Value.bool false),
     ("fileTransferFields", Value.arr
       [Value.obj [("key", Value.str "NAME"), ("value", Value.str "override")]])]
    (by decide)

/-! ## Claim C10 -/

theorem foldl_spec_lookup_untouched (post : List Value) (k : String)
    (hpost : ∀ e ∈ post, entryKeyLower e ≠ some k) :
    ∀ m, lookupV (post.foldl gtEntrySpecStep m) k = lookupV m k := by
  induction post with
  | nil => intro m; rfl
  | cons e t ih =>
    intro m
    rw [List.foldl_cons]
    rw [ih (fun e2 he2 => hpost e2 (by simp [he2]))]
    cases e with
    | obj fm =>
      simp only [gtEntrySpecStep]
      cases hk : lookupV fm "key" with
      | none => rfl
      | some w =>
        cases w with
        | str s =>
          dsimp only
          by_cases hs : s = ""
          · rw [if_neg (by simp [hs])]
          · rw [if_pos hs]
            apply lookupV_dictInsert_ne
            intro hc
            apply hpost (Value.obj fm) (by simp)
            simp only [entryKeyLower, hk]
            rw [if_pos hs, hc]
        | null => rfl
        | bool b => rfl
        | num n => rfl
        | arr l => rfl
        | obj m2 => rfl
    | null => rfl
    | bool b => rfl
    | num n => rfl
    | str s => rfl
    | arr l => rfl

/-- C10 (confirmed): an embedded field-list entry with a non-empty key
and a null value (not overridden by a later entry under the same
canonical key) makes the field present in the normalized reference with
value null, which renders to the empty string; the field is then
classified by the reference-present branches, never the reference-absent
ones. -/
theorem c10_null_entry_present (items : List (String × Value))
    (entries pre post : List Value) (fm : List (String × Value)) (k : String)
    (hftf : lookupV items "fileTransferFields" = some (Value.arr entries))
    (hwf : ∀ e ∈ entries, wfEntry e = true)
    (hsplit : entries = pre ++ Value.obj fm :: post)
    (hk : lookupV fm "key" = some (Value.str k)) (hk0 : k ≠ "")
    (hv : lookupV fm "value" = some Value.null)
    (hpost : ∀ e ∈ post, entryKeyLower e ≠ some (lowerStr k)) :
    lookupV (loadGroundTruth (Value.obj items)) (lowerStr k) = some Value.null ∧
    format_value Value.null = "" ∧
    (lookupV (loadGroundTruth (Value.obj items)) (lowerStr k)).isSome = true ∧
    (∀ (j : Option Judge) (prP : Bool) (prV : Value) (r : String × String),
      fieldOutcome j (lowerStr k) true
        ((lookupV (loadGroundTruth (Value.obj items)) (lowerStr k)).getD Value.null)
        prP prV = some r →
      r.1 = "GT Present PR Absent" ∨ r.1 = "GT Present PR Present and match" ∨
        r.1 = "GT Present PR Present but mismatch") := by
  have hwf2 : ∀ e ∈ ftfEntries items, wfEntry e = true := by
    unfold ftfEntries
    rw [hftf]
    exact hwf
  have heq := loadGroundTruth_eq_spec items hwf2
  have hstep : gtEntrySpecStep (List.foldl gtEntrySpecStep
      (items.foldl
        (fun acc p =>
          if (lowerStr p.1 ≠ "filetransferfields" ∧ lowerStr p.1 ≠ "deleted") ∧ p.2 ≠ Value.null
          then dictInsert acc (lowerStr p.1) p.2
          else acc)
        []) pre) (Value.obj fm) =
      dictInsert (List.foldl gtEntrySpecStep
        (items.foldl
          (fun acc p =>
            if (lowerStr p.1 ≠ "filetransferfields" ∧ lowerStr p.1 ≠ "deleted") ∧ p.2 ≠ Value.null
            then dictInsert acc (lowerStr p.1) p.2
            else acc)
          []) pre) (lowerStr k) Value.null := by
    simp [gtEntrySpecStep, hk, hk0, hv]
  have hlook : lookupV (loadGroundTruthSpec (Value.obj items)) (lowerStr k) =
      some Value.null := by
    unfold loadGroundTruthSpec
    dsimp only
    rw [hftf]
    dsimp only
    rw [hsplit, List.foldl_append, List.foldl_cons]
    rw [hstep]
    rw [foldl_spec_lookup_untouched post (lowerStr k) hpost]
    exact lookupV_dictInsert_self _ _ _
  have h1 : lookupV (loadGroundTruth (Value.obj items)) (lowerStr k) = some Value.null := by
    rw [heq]
    exact hlook
  refine ⟨h1, rfl, by rw [h1]; rfl, ?_⟩
  intro j prP prV r hr
  cases prP with
  | true =>
    have hdet : determine_match_status j (lowerStr k)
        ((lookupV (loadGroundTruth (Value.obj items)) (lowerStr k)).getD Value.null)
        prV = some r := by
      simpa [fieldOutcome] using hr
    unfold determine_match_status at hdet
    rcases matchCascade_status _ _ _ _ _ r hdet with h | h
    · right; left; exact h
    · right; right; exact h
  | false =>
    have habs : (absentSubtype (lowerStr k)
        ((lookupV (loadGroundTruth (Value.obj items)) (lowerStr k)).getD Value.null)).map
          (fun mt => ("GT Present PR Absent", mt)) = some r := by
      simpa [fieldOutcome] using hr
    rcases Option.map_eq_some'.mp habs with ⟨mt, _, hrr⟩
    left
    rw [← hrr]

/-- C10 witness: a concrete record whose only embedded entry carries key
`Opt` and value null. -/
theorem c10_witness :
    lookupV (loadGroundTruth (Value.obj
      [("name", Value.str "t"),
       ("fileTransferFields", Value.arr
         [Value.obj [("key", Value.str "Opt"), ("value", Value.null)]])]))
      (lowerStr "Opt") = some Value.null ∧
    format_value Value.null = "" ∧
    (lookupV (loadGroundTruth (Value.obj
      [("name", Value.str "t"),
       ("fileTransferFields", Value.arr
         [Value.obj [("key", Value.str "Opt"), ("value", Value.null)]])]))
      (lowerStr "Opt")).isSome = true ∧
    (∀ (j : Option Judge) (prP : Bool) (prV : Value) (r : String × String),
      fieldOutcome j (lowerStr "Opt") true
        ((lookupV (loadGroundTruth (Value.obj
          [("name", Value.str "t"),
           ("fileTransferFields", Value.arr
             [Value.obj [("key", Value.str "Opt"), ("value", Value.null)]])]))
          (lowerStr "Opt")).getD Value.null)
        prP prV = some r →
      r.1 = "GT Present PR Absent" ∨ r.1 = "GT Present PR Present and match" ∨
        r.1 = "GT Present PR Present but mismatch") :=
  c10_null_entry_present
    [("name", Value.str "t"),
     ("fileTransferFields", Value.arr
       [Value.obj [("key", Value.str "Opt"), ("value", Value.null)]])]
    [Value.obj [("key", Value.str "Opt"), ("value", Value.null)]]
    [] [] [("key", Value.str "Opt"), ("value", Value.null)] "Opt"
    (by rfl) (by decide) (by rfl) (by rfl) (by decide) (by rfl) (by simp)

/-! ## Claim C7 -/

/-- C7 (confirmed): a field name whose lower-casing is in the ignored set
never appears among the produced rows, whatever the reference record,
candidate records and catalogue contain: the ignore filter runs on the
union of all three sources. -/
theorem c7_ignored_fields_absent (j : Option Judge) (gtData : List (String × Value))
    (prs : List (List (String × Value))) (exhaustive : List String) (f : String)
    (rows : List Row)
    (hrep : buildReport j gtData prs exhaustive = some rows)
    (hig : IGNORED_FIELDS.contains (lowerStr f) = true) :
    f ∉ rows.map Row.fieldName := by
  unfold buildReport at hrep
  by_cases hempty : gtData.isEmpty = true
  · rw [if_pos hempty] at hrep
    exact Option.noConfusion hrep
  · rw [if_neg hempty] at hrep
    rw [optMapM_buildRow_names j gtData prs _ rows hrep]
    intro hf
    unfold finalFields at hf
    rw [mem_sortStrs] at hf
    rw [List.mem_filter] at hf
    have h2 := hf.2
    rw [hig] at h2
    exact Bool.noConfusion h2

/-- C7 witness: with `filetypeid` present in the reference, the candidate
and the catalogue, the produced report holds only the row for `a`. -/
theorem c7_witness :
    "filetypeid" ∉
      ([{ fieldName := "a", gtValue := "v",
          cells := [("v", "GT Present PR Present and match", "exact_match")] }] :
        List Row).map Row.fieldName :=
  c7_ignored_fields_absent none
    [("a", Value.str "v"), ("filetypeid", Value.str "x")]
    [[("a", Value.str "v"), ("filetypeid", Value.str "x")]]
    ["filetypeid", "a"] "filetypeid" _ (by rfl) (by decide)

/-! ## Claim C9 -/

/-- C9 (confirmed): with the judge unavailable, reconciliation is a pure
function of the normalized reference, the candidate list and the
catalogue — two runs on identical inputs produce identical rows (the same
rendered values, Status and Subtype for every field and version). -/
theorem c9_deterministic (gt1 gt2 : List (String × Value))
    (prs1 prs2 : List (List (String × Value))) (ex1 ex2 : List String)
    (h1 : gt1 = gt2) (h2 : prs1 = prs2) (h3 : ex1 = ex2) :
    buildReport none gt1 prs1 ex1 = buildReport none gt2 prs2 ex2 := by
  subst h1
  subst h2
  subst h3
  rfl

/-- C9 witness: two identical concrete runs coincide. -/
theorem c9_witness :
    buildReport none [("a", Value.str "v")] [[("b", Value.num 2)]] ["c"] =
      buildReport none [("a", Value.str "v")] [[("b", Value.num 2)]] ["c"] :=
  c9_deterministic [("a", Value.str "v")] [("a", Value.str "v")]
    [[("b", Value.num 2)]] [[("b", Value.num 2)]] ["c"] ["c"] rfl rfl rfl

end TIP




